import Mathlib

/-!
Verification of the generation-cache and sandboxed-execution engine of
`src/tools/dynamic_tool_creator.py` (class `DynamicToolCreator`).

Shallow embedding conventions:
* Python strings are Lean `String`; character-level work is done on `String.data`
  (`List Char`).  Lower-casing, whitespace splitting and alphanumeric tests are
  modelled on ASCII (`Char.toLower`, `Char.isWhitespace`, `Char.isAlphanum`),
  which matches every string constant appearing in the source.
* Python float arithmetic in the similarity scores is modelled by exact
  rationals (`ℚ`); the literals 0.7, 0.3 and 0.75 become 7/10, 3/10, 3/4.
* The md5 fingerprint is modelled as the injective map
  `normalized ++ ":" ++ language` (a collision-free abstraction of a digest of
  exactly that combined string).
* A Python dict is an association list in insertion order: lookup returns the
  first binding, assignment to an existing key updates it in place, assignment
  to a fresh key appends.
* Timestamps: `created_at` / `last_used` ISO strings are modelled by the day
  number they denote (`Int`), so `(current - last).days` becomes integer
  subtraction; the `"%m%d_%H%M"` filename stamp is carried as an opaque string.
  `PyTime` bundles both views of `datetime.now()`.
* Fallible effects are oracles passed in as arguments: the OpenAI generator is
  a function `String → String → Except String String`, registry-file writes
  get a `saveOk : Bool` outcome, the child process of `execute_script` is a
  `ProcOutcome`.  Counters in `EngineState` (`genCalls`, `loadCalls`,
  `execCalls`) instrument how often the generator is invoked, the registry
  file is read, and a child process is spawned; they model the spy/mock
  observation points the specification asks for.
* Raised `ValueError`s become `Except.error` with a structured `EngineError`
  carrying the exact term interpolated into the Python message.
-/

/-! ## Python string primitives -/

/-- Python `str.lower()` (ASCII). -/
def pyLower (s : String) : String := String.mk (s.data.map Char.toLower)

/-- Splitter behind Python `str.split()`: runs of whitespace separate words,
leading and trailing whitespace is ignored.  First argument accumulates the
current word in reverse. -/
def pyWordsAux : List Char → List Char → List (List Char)
  | acc, [] => if acc.isEmpty then [] else [acc.reverse]
  | acc, c :: cs =>
    if c.isWhitespace then
      if acc.isEmpty then pyWordsAux [] cs else acc.reverse :: pyWordsAux [] cs
    else pyWordsAux (c :: acc) cs

/-- Python `str.split()` (no separator argument). -/
def pyWords (s : String) : List String := (pyWordsAux [] s.data).map String.mk

/-- Python `str.strip()`: drop leading and trailing whitespace. -/
def pyStrip (s : String) : String :=
  String.mk (((s.data.dropWhile Char.isWhitespace).reverse.dropWhile
    Char.isWhitespace).reverse)

/-- Python substring containment `needle in haystack`, on character lists. -/
def containsList (needle : List Char) : List Char → Bool
  | [] => needle.isEmpty
  | c :: cs => needle.isPrefixOf (c :: cs) || containsList needle cs

/-- Python substring containment `needle in haystack`. -/
def containsSubstr (needle haystack : String) : Bool :=
  containsList needle.data haystack.data

/-- Fuelled core of Python `str.replace`: replace every non-overlapping
occurrence of `p` by `r`, scanning left to right.  Fuel bounds the number of
characters consumed so the recursion is structural and kernel-reducible. -/
def replaceListGo (p r : List Char) : Nat → List Char → List Char
  | _, [] => []
  | 0, s => s
  | fuel + 1, c :: s =>
    if p.isPrefixOf (c :: s) then r ++ replaceListGo p r fuel (s.drop (p.length - 1))
    else c :: replaceListGo p r fuel s

/-- Python `str.replace(p, r)` (for the non-empty patterns the source uses). -/
def pyReplace (s p r : String) : String :=
  String.mk (replaceListGo p.data r.data s.data.length s.data)

/-! ## `_normalize_request` -/

/-- The `variations` table of `_normalize_request`, in Python dict insertion
order: canonical phrase paired with its list of synonymous phrases. -/
def variations : List (String × List String) :=
  [ ("computer name",
      ["computer name", "hostname", "server name", "machine name", "host name"]),
    ("current time",
      ["current time", "server time", "current date time", "date time", "time"]),
    ("ip address",
      ["ip address", "current ip", "server ip", "network ip", "my ip"]),
    ("disk space",
      ["disk space", "available space", "disk usage", "storage space"]),
    ("memory usage", ["memory usage", "ram usage", "memory", "ram"]),
    ("system info", ["system info", "system information", "server info"]),
    ("uptime", ["uptime", "system uptime", "server uptime"]) ]

/-- `_normalize_request`: lower-case, collapse whitespace
(`" ".join(request.lower().strip().split())`), then for each canonical form and
each of its variants, if the variant occurs, replace every occurrence by the
canonical form. -/
def _normalize_request (request : String) : String :=
  let base := " ".intercalate (pyWords (pyLower request))
  variations.foldl
    (fun normalized cv =>
      cv.2.foldl
        (fun n variant =>
          if containsSubstr variant n then pyReplace n variant cv.1 else n)
        normalized)
    base

/-- `_get_request_hash`: md5 of `f"{normalized}:{language}"`, modelled as the
combined string itself (injective collision-free abstraction). -/
def _get_request_hash (request language : String) : String :=
  _normalize_request request ++ ":" ++ language

/-! ## Similarity scoring -/

/-- Cardinality of the intersection of the word sets of `w1` and `w2`. -/
def wordInterCard (w1 w2 : List String) : Nat :=
  (w1.dedup.filter (fun w => w ∈ w2)).length

/-- Cardinality of the union of the word sets of `w1` and `w2`. -/
def wordUnionCard (w1 w2 : List String) : Nat :=
  (w1 ++ w2).dedup.length

/-- `_calculate_similarity`: Jaccard index of the word sets of the two strings
(`len(intersection) / len(union)`), with the source conventions
`1.0` when both sets are empty and `0.0` when exactly one is. -/
def _calculate_similarity (str1 str2 : String) : ℚ :=
  let words1 := pyWords str1
  let words2 := pyWords str2
  if words1.isEmpty ∧ words2.isEmpty then 1
  else if words1.isEmpty ∨ words2.isEmpty then 0
  else (wordInterCard words1 words2 : ℚ) / (wordUnionCard words1 words2 : ℚ)

/-- The `stop_words` set of `_calculate_filename_similarity`. -/
def filenameStopWords : List String :=
  ["get", "show", "display", "fetch", "find", "current", "system", "info",
   "information", "script", "python", "bash"]

/-- Strip a trailing `_\d{4}_\d{4}` timestamp (pattern `_MMDD_HHMM`) from a
character list, mirroring `re.sub(r"_\d{4}_\d{4}$", "", s)`. -/
def stripTimestampSuffix (s : List Char) : List Char :=
  match s.reverse with
  | d1 :: d2 :: d3 :: d4 :: u1 :: d5 :: d6 :: d7 :: d8 :: u2 :: rest =>
    if d1.isDigit ∧ d2.isDigit ∧ d3.isDigit ∧ d4.isDigit ∧ u1 = '_' ∧
       d5.isDigit ∧ d6.isDigit ∧ d7.isDigit ∧ d8.isDigit ∧ u2 = '_' then
      rest.reverse
    else s
  | _ => s

/-- `_calculate_filename_similarity`: the task name is the filename up to the
first dot with the `_MMDD_HHMM` timestamp removed and underscores turned into
spaces; both this task name and the raw request are lower-cased, split into
word sets and stripped of stop words, then the Jaccard index is computed with
the same empty-set conventions as `_calculate_similarity`. -/
def _calculate_filename_similarity (request filename : String) : ℚ :=
  let filename_without_ext := filename.data.takeWhile (fun c => c ≠ '.')
  let task_name := stripTimestampSuffix filename_without_ext
  let task_name_spaced := task_name.map (fun c => if c = '_' then ' ' else c)
  let task_words0 := pyWords (pyLower (String.mk task_name_spaced))
  let request_words0 := pyWords (pyLower request)
  let task_words := task_words0.filter (fun w => w ∉ filenameStopWords)
  let request_words := request_words0.filter (fun w => w ∉ filenameStopWords)
  if task_words.isEmpty ∧ request_words.isEmpty then 1
  else if task_words.isEmpty ∨ request_words.isEmpty then 0
  else (wordInterCard task_words request_words : ℚ) /
    (wordUnionCard task_words request_words : ℚ)

/-! ## Registry, artifact store and engine state -/

/-- One value of the `script_registry.json` mapping. -/
structure ScriptInfo where
  filename : String
  original_request : String
  language : String
  created_at : Int
  usage_count : Nat
  last_used : Option Int
  deriving DecidableEq

/-- The registry: a Python dict in insertion order, fingerprint → entry. -/
abbrev Registry := List (String × ScriptInfo)

/-- The artifact directory: filename → source text. -/
abbrev Files := List (String × String)

/-- First binding of a key in a dict (Python `d[k]` / `k in d`). -/
def dictGet {α : Type} : List (String × α) → String → Option α
  | [], _ => none
  | (k, v) :: rest, key => if k = key then some v else dictGet rest key

/-- Python dict assignment `d[k] = v`: update in place, else append. -/
def dictSet {α : Type} : List (String × α) → String → α → List (String × α)
  | [], key, v => [(key, v)]
  | (k, w) :: rest, key, v =>
    if k = key then (key, v) :: rest else (k, w) :: dictSet rest key v

/-- `script_path.exists()`. -/
def fileExists (files : Files) (filename : String) : Bool :=
  (dictGet files filename).isSome

/-- Read a file (`open(path).read()`); `none` when absent. -/
def getFile (files : Files) (filename : String) : Option String :=
  dictGet files filename

/-- Write a file, creating or overwriting it. -/
def setFile (files : Files) (filename code : String) : Files :=
  dictSet files filename code

/-- Delete a file (`path.unlink()`): drop every binding of `filename`. -/
def removeFile : Files → String → Files
  | [], _ => []
  | (fn, c) :: rest, filename =>
    if fn = filename then removeFile rest filename
    else (fn, c) :: removeFile rest filename

/-- Persisted state of `script_registry.json`: absent, unparsable JSON, or a
stored registry. -/
inductive RegistryFile
  | missing
  | corrupt
  | stored (registry : Registry)
  deriving DecidableEq

/-- `datetime.now()`, reduced to the two projections the engine uses: the day
number (for `timedelta.days` arithmetic on `created_at` / `last_used`) and the
`"%m%d_%H%M"` filename stamp. -/
structure PyTime where
  day : Int
  stamp : String
  deriving DecidableEq

/-- Engine state: the persisted registry file, the `dynamic_commands`
directory, and instrumentation counters observing how often the generator is
invoked, the registry file is read, and a child process is spawned. -/
structure EngineState where
  registryFile : RegistryFile
  files : Files
  genCalls : Nat
  loadCalls : Nat
  execCalls : Nat
  deriving DecidableEq

/-- `_load_script_registry`: a missing file (`FileNotFoundError`) or corrupt
contents (`json.JSONDecodeError`) yield the empty registry instead of raising. -/
def _load_script_registry : RegistryFile → Registry
  | .missing => []
  | .corrupt => []
  | .stored registry => registry

/-- Registry read, counted by the `loadCalls` instrumentation. -/
def loadRegistry (st : EngineState) : Registry × EngineState :=
  (_load_script_registry st.registryFile, { st with loadCalls := st.loadCalls + 1 })

/-- `_save_script_registry`: on success the file now stores `registry`; any
write failure (`saveOk = false`) is logged and swallowed, leaving the file as
it was and raising nothing. -/
def _save_script_registry (saveOk : Bool) (registry : Registry)
    (st : EngineState) : EngineState :=
  if saveOk then { st with registryFile := .stored registry } else st

/-! ## `_find_existing_script` -/

/-- The combined similarity the fuzzy matcher assigns to a candidate entry:
`request_similarity * 0.7 + filename_similarity * 0.3`, where the request
similarity compares the two normalized request texts and the filename
similarity compares the raw request with the stored filename. -/
def combinedScore (request : String) (info : ScriptInfo) : ℚ :=
  _calculate_similarity (_normalize_request request)
      (_normalize_request info.original_request) * (7 / 10)
    + _calculate_filename_similarity request info.filename * (3 / 10)

/-- The exact-fingerprint branch of `_find_existing_script`: a direct hash hit
is returned only when the stored filename still exists on disk. -/
def exactLookup (files : Files) (registry : Registry) (request language : String) :
    Option (String × String) :=
  match dictGet registry (_get_request_hash request language) with
  | some script_info =>
    if fileExists files script_info.filename then
      some (script_info.filename, script_info.original_request)
    else none
  | none => none

/-- The fuzzy-matching loop of `_find_existing_script` over the registry items
in insertion order, carrying `(best_match, best_similarity)`.  Entries of
another language or with a missing artifact file are skipped; a candidate
replaces the best match only when its combined score strictly exceeds both the
current best and the 0.75 threshold. -/
def fuzzyLoop (files : Files) (request language : String) :
    Registry → Option (String × String) × ℚ → Option (String × String) × ℚ
  | [], acc => acc
  | (_, script_info) :: rest, (best_match, best_similarity) =>
    if script_info.language = language then
      if fileExists files script_info.filename then
        let combined_similarity := combinedScore request script_info
        if best_similarity < combined_similarity ∧ (3 / 4 : ℚ) < combined_similarity then
          fuzzyLoop files request language rest
            (some (script_info.filename, script_info.original_request),
             combined_similarity)
        else fuzzyLoop files request language rest (best_match, best_similarity)
      else fuzzyLoop files request language rest (best_match, best_similarity)
    else fuzzyLoop files request language rest (best_match, best_similarity)

/-- `_find_existing_script` on a loaded registry: exact fingerprint match
(with an existing file) first, then the fuzzy scan started from
`(None, 0.0)`. -/
def _find_existing_script (files : Files) (registry : Registry)
    (request language : String) : Option (String × String) :=
  match exactLookup files registry request language with
  | some result => some result
  | none => (fuzzyLoop files request language registry (none, 0)).1

/-! ## Registration, usage tracking and cleanup -/

/-- `_register_script`: load the registry, overwrite the fingerprint binding
with a fresh entry (`usage_count = 1`, no `last_used`), save. -/
def _register_script (saveOk : Bool) (now : PyTime) (st : EngineState)
    (request language filename : String) : EngineState :=
  let (registry, st1) := loadRegistry st
  let registry' := dictSet registry (_get_request_hash request language)
    { filename := filename, original_request := request, language := language,
      created_at := now.day, usage_count := 1, last_used := none }
  _save_script_registry saveOk registry' st1

/-- The in-registry effect of `_update_script_usage`: bump the first entry
whose filename matches and stamp its `last_used`; later entries untouched. -/
def bumpFirstUsage : Registry → String → Int → Registry
  | [], _, _ => []
  | (k, script_info) :: rest, filename, day =>
    if script_info.filename = filename then
      (k, { script_info with
              usage_count := script_info.usage_count + 1
              last_used := some day }) :: rest
    else (k, script_info) :: bumpFirstUsage rest filename day

/-- `_update_script_usage`: load, bump the first filename match, save. -/
def _update_script_usage (saveOk : Bool) (now : PyTime) (st : EngineState)
    (filename : String) : EngineState :=
  let (registry, st1) := loadRegistry st
  _save_script_registry saveOk (bumpFirstUsage registry filename now.day) st1

/-- The timestamp `cleanup_old_scripts` compares against `max_unused_days`:
`last_used` when present, else `created_at`. -/
def lastUsedOf (script_info : ScriptInfo) : Int :=
  script_info.last_used.getD script_info.created_at

/-- The scan of `cleanup_old_scripts` over the registry items in order,
mutating the artifact directory as it goes (file deletions are visible to the
existence checks of later iterations) and accumulating the keys to pop:
an entry whose file is gone is marked for removal; an entry idle for more than
`max_unused_days` days with `usage_count ≤ 2` has its file unlinked and is
marked for removal. -/
def cleanupScan (nowDay max_unused_days : Int) :
    Registry → Files → Files × List String
  | [], files => (files, [])
  | (script_hash, script_info) :: rest, files =>
    if fileExists files script_info.filename then
      if max_unused_days < nowDay - lastUsedOf script_info ∧
          script_info.usage_count ≤ 2 then
        let files' := removeFile files script_info.filename
        let (files'', removed) := cleanupScan nowDay max_unused_days rest files'
        (files'', script_hash :: removed)
      else cleanupScan nowDay max_unused_days rest files
    else
      let (files', removed) := cleanupScan nowDay max_unused_days rest files
      (files', script_hash :: removed)

/-- `cleanup_old_scripts(max_unused_days = 30)`: scan, pop the collected keys
from the registry, and save the registry only when something was removed. -/
def cleanup_old_scripts (saveOk : Bool) (now : PyTime) (st : EngineState)
    (max_unused_days : Int := 30) : EngineState :=
  let (registry, st1) := loadRegistry st
  let (files', scripts_to_remove) :=
    cleanupScan now.day max_unused_days registry st1.files
  let registry' := registry.filter (fun p => p.1 ∉ scripts_to_remove)
  let st2 := { st1 with files := files' }
  if scripts_to_remove.isEmpty then st2
  else _save_script_registry saveOk registry' st2

/-! ## `_generate_semantic_filename` -/

/-- The `task_patterns` dictionary, in Python dict insertion order: task tag
paired with its trigger phrases. -/
def task_patterns : List (String × List String) :=
  [ ("sys_info", ["system info", "system information", "hardware info", "machine info"]),
    ("hostname", ["computer name", "hostname", "server name", "machine name", "host name"]),
    ("current_time", ["current time", "date time", "time now", "server time", "current date"]),
    ("uptime", ["uptime", "system uptime", "server uptime", "how long running"]),
    ("memory", ["memory usage", "ram usage", "memory info", "ram info"]),
    ("disk_space", ["disk space", "disk usage", "storage space", "available space"]),
    ("ip_addr", ["ip address", "current ip", "network ip", "my ip", "server ip"]),
    ("user_info", ["current user", "username", "user info", "whoami"]),
    ("processes", ["running processes", "process list", "active processes"]),
    ("weather", ["weather", "temperature", "forecast", "weather info", "climate"]),
    ("api_call", ["api call", "fetch data", "api request", "http request"]),
    ("calc", ["calculate", "computation", "math", "arithmetic", "formula"]),
    ("passwd", ["password", "random password", "secure password", "generate password"]),
    ("data_proc", ["process data", "analyze data", "data analysis", "parse data"]),
    ("convert", ["convert", "conversion", "unit conversion"]),
    ("list_files", ["list files", "show files", "directory contents"]),
    ("read_file", ["read file", "display file", "show file content"]),
    ("ping", ["ping", "network test", "connectivity check", "internet test"]),
    ("net_info", ["network info", "network status", "interface info"]),
    ("random", ["random", "generate random", "random data", "random number"]) ]

/-- The fallback `stop_words` set of `_generate_semantic_filename`. -/
def semanticStopWords : List String :=
  ["the", "a", "an", "and", "or", "but", "in", "on", "at", "to", "for", "of",
   "with", "by", "from", "up", "about", "into", "through", "during", "before",
   "after", "above", "below", "can", "could", "should", "would", "will",
   "shall", "may", "might", "must", "please", "create", "make", "generate",
   "show", "display", "get", "fetch", "find", "script", "python", "bash",
   "program", "application", "tool", "function", "code", "me", "my", "i",
   "you", "we", "they", "it", "that", "this", "what", "how", "when", "where",
   "why", "which", "who"]

/-- The fallback word extraction: per word of the lower-cased request, keep
only alphanumeric characters, then keep the word when it is non-empty, not a
stop word and longer than 2 characters, truncated to 8 characters. -/
def semanticWords (request_lower : String) : List String :=
  (pyWords request_lower).foldr
    (fun word acc =>
      let clean_word := String.mk (word.data.filter Char.isAlphanum)
      if clean_word ≠ "" ∧ clean_word ∉ semanticStopWords ∧
          2 < clean_word.data.length then
        String.mk (clean_word.data.take 8) :: acc
      else acc)
    []

/-- `_generate_semantic_filename`: first matching task pattern in table order,
else up to two significant words joined by underscores, else `custom`; the tag
is truncated to 20 characters and suffixed with the `%m%d_%H%M` timestamp and
the language extension. -/
def _generate_semantic_filename (now : PyTime) (user_request language : String) :
    String :=
  let request_lower := pyStrip (pyLower user_request)
  let matched0 := task_patterns.find?
    (fun tp => tp.2.any (fun pattern => containsSubstr pattern request_lower))
  let matched_task :=
    match matched0 with
    | some tp => tp.1
    | none =>
      let words := semanticWords request_lower
      if words.isEmpty then "custom" else "_".intercalate (words.take 2)
  let matched_task := String.mk (matched_task.data.take 20)
  let extension := if language = "bash" then "sh" else "py"
  matched_task ++ "_" ++ now.stamp ++ "." ++ extension

/-! ## Security deny lists and language choice -/

/-- The `dangerous_keywords` list of `generate_code_from_request`, in source
order (several entries carry a significant trailing or surrounding space). -/
def dangerous_keywords : List String :=
  ["delete ", "remove ", "rm ", "mv ", "cp ", "chmod ", "chown ", "sudo ",
   "su ", "install ", "uninstall ", "modify ", "edit ", "write to",
   "create file", "mkdir ", ".ssh", ".env", "/etc/", "/var/", "/usr/",
   "/root/", "~/.config", "~/.cache", "bashrc", "zshrc", "passwd", "shadow",
   "hosts", "fstab", "crontab", "systemctl ", "service ", "daemon ", "kill ",
   "killall ", "pkill ", " format ", "fdisk ", "mount ", "umount ", "dd ",
   "shred "]

/-- The `dangerous_patterns` list of `generate_code_from_request`, in source
order. -/
def dangerous_patterns : List String :=
  ["deletes everything", "delete everything", "removes everything",
   "remove everything", "overwrite", "overwriting", "wipe", "wiping",
   "destroy", "destroying", "malicious", "malware", "virus", "hack",
   "exploit", "backdoor", "system files", "important files",
   "configuration files", "config files", "private key", "secret key",
   "password file", "credential", "firewall", "iptables", "security",
   "permission", "privilege"]

/-- The keyword list forcing Python when the language is `auto`. -/
def pythonKeywords : List String :=
  ["python script", "python application", "api", "weather", "calculate",
   "data", "json", "parse", "analyze", "process", "fetch", "request"]

/-- The keyword list suggesting bash when the language is `auto`. -/
def bashKeywords : List String := ["date", "time", "password", "simple script"]

/-- The keyword list vetoing bash when the language is `auto`. -/
def bashVetoKeywords : List String := ["python", "application", "fetch", "api"]

/-- The language-resolution logic of `generate_code_from_request` on the
lower-cased request. -/
def determineLanguage (request_lower preferred_language : String) : String :=
  if preferred_language = "auto" then
    if pythonKeywords.any (fun k => containsSubstr k request_lower) then "python"
    else if bashKeywords.any (fun k => containsSubstr k request_lower) ∧
        ¬ bashVetoKeywords.any (fun k => containsSubstr k request_lower) then
      "bash"
    else "python"
  else preferred_language

/-! ## `generate_code_from_request`, `execute_script`, `create_and_execute_tool` -/

/-- The `ValueError`s `generate_code_from_request` can raise, keyed by the term
interpolated into the message (the keyword is `.strip()`-ed in the message). -/
inductive EngineError
  | securityViolationKeyword (term : String)
  | securityViolationPattern (term : String)
  | generationFailure (msg : String)
  | aiDisabled
  deriving DecidableEq

/-- `generate_code_from_request(user_request, preferred_language="auto")`.
`gen` is the external OpenAI generator (`_generate_ai_code`), `ai_enabled` the
constructor flag, `saveOk` the outcome oracle for registry writes, `now` the
clock.  Returns the Python 4-tuple `(code, language, filename, is_reused)` or
the raised error, together with the updated engine state. -/
def generate_code_from_request (gen : String → String → Except String String)
    (ai_enabled saveOk : Bool) (now : PyTime) (st : EngineState)
    (user_request : String) (preferred_language : String := "auto") :
    Except EngineError (String × String × String × Bool) × EngineState :=
  let request_lower := pyLower user_request
  match dangerous_keywords.find? (fun keyword => containsSubstr keyword request_lower) with
  | some keyword => (.error (.securityViolationKeyword (pyStrip keyword)), st)
  | none =>
  match dangerous_patterns.find? (fun pattern => containsSubstr pattern request_lower) with
  | some pattern => (.error (.securityViolationPattern pattern), st)
  | none =>
  let language := determineLanguage request_lower preferred_language
  let (registry, st1) := loadRegistry st
  match _find_existing_script st1.files registry user_request language with
  | some (filename, _original_request) =>
    let code := (getFile st1.files filename).getD ""
    let st2 := _update_script_usage saveOk now st1 filename
    (.ok (code, language, filename, true), st2)
  | none =>
    if ai_enabled then
      let st2 := { st1 with genCalls := st1.genCalls + 1 }
      match gen user_request language with
      | .error msg => (.error (.generationFailure msg), st2)
      | .ok code =>
        let filename := _generate_semantic_filename now user_request language
        let st3 := _register_script saveOk now st2 user_request language filename
        (.ok (code, language, filename, false), st3)
    else (.error .aiDisabled, st)

/-- Behaviour of the child process spawned by `execute_script`: either it
finishes within the timeout with a return code and captured output, or the
`asyncio.wait_for` timer fires first. -/
inductive ProcOutcome
  | completed (returncode : Int) (stdout stderr : String)
  | timedOut
  deriving DecidableEq

/-- Process-lifecycle observations of one `execute_script` call: whether
`process.kill()` was issued, whether the process was awaited afterwards
(`await process.wait()`), and whether the call classified the run as timed
out (the `asyncio.TimeoutError` branch). -/
structure ExecEffects where
  killed : Bool
  awaited : Bool
  timedOut : Bool
  deriving DecidableEq

/-- The `stderr` text returned by the timeout branch of `execute_script`. -/
def timeoutMessage (timeout : Int) : String :=
  "Script execution timed out after " ++ toString timeout ++ " seconds"

/-- `execute_script(code, language, filename, timeout=30)`: write the script
into the commands directory, spawn the child process, and either return
`(returncode == 0, stdout, stderr)` or, when the timer fires first, kill the
process, await it, and return `(False, "", timeout message)`. -/
def execute_script (proc : ProcOutcome) (st : EngineState)
    (code language filename : String) (timeout : Int := 30) :
    (Bool × String × String) × ExecEffects × EngineState :=
  let files' := setFile st.files filename code
  let st1 := { st with files := files', execCalls := st.execCalls + 1 }
  match proc with
  | .completed returncode stdout stderr =>
    ((returncode = 0, stdout, stderr),
     { killed := false, awaited := false, timedOut := false }, st1)
  | .timedOut =>
    ((false, "", timeoutMessage timeout),
     { killed := true, awaited := true, timedOut := true }, st1)

/-- Result dictionary of `create_and_execute_tool` (the notification
collaborator is out of scope; the Telegram send is dropped). -/
inductive ToolResponse
  | completed (success : Bool) (request language filename code stdout stderr : String)
      (is_reused : Bool)
  | failed (error : EngineError) (request : String)
  deriving DecidableEq

/-- `create_and_execute_tool`: generate (or reuse) the script, then execute it
with the default 30-unit timeout; a raised `ValueError` is caught and turned
into an error response without any execution. -/
def create_and_execute_tool (gen : String → String → Except String String)
    (proc : ProcOutcome) (ai_enabled saveOk : Bool) (now : PyTime)
    (st : EngineState) (user_request : String)
    (preferred_language : String := "auto") : ToolResponse × EngineState :=
  match generate_code_from_request gen ai_enabled saveOk now st user_request
      preferred_language with
  | (.error e, st1) => (.failed e user_request, st1)
  | (.ok (code, language, filename, is_reused), st1) =>
    let ((success, stdout, stderr), _effects, st2) :=
      execute_script proc st1 code language filename 30
    (.completed success user_request language filename code stdout stderr
      is_reused, st2)

deriving instance DecidableEq for Except

/-! ## Concrete fixtures used by witnesses and counterexamples -/

/-- A deterministic stub generator (spec 9: the generator is an injectable
collaborator, testable with a deterministic stub). -/
def stubGen : String → String → Except String String := fun _ _ => .ok "print(1)"

/-- An engine state with an empty (but parseable) registry and no artifacts. -/
def emptyState : EngineState :=
  { registryFile := .stored [], files := [], genCalls := 0, loadCalls := 0,
    execCalls := 0 }

/-- A fixed clock value. -/
def time0101 : PyTime := { day := 0, stamp := "0101_0101" }

/-- State after a first call registering `"kill\tx"` (a request whose deny
term `"kill "` is hidden by the tab, so the raw-text scan passes while the
normalized key is `"kill x"`). -/
def killState1 : EngineState :=
  (generate_code_from_request stubGen true true time0101 emptyState
    "kill\tx" "python").2

/-- `killState1` after the executor has stored the artifact. -/
def killState2 : EngineState :=
  { killState1 with
      files := setFile killState1.files "kill_0101_0101.py" "print(1)" }

/-- A registry entry as left by a first registering call for
`"get  foo bar"`. -/
def hitInfo : ScriptInfo :=
  { filename := "foo_bar_0101_0101.py", original_request := "get  foo bar",
    language := "python", created_at := 0, usage_count := 1, last_used := none }

/-- A state holding `hitInfo` under its fingerprint, with its artifact. -/
def hitState : EngineState :=
  { registryFile := .stored [(_get_request_hash "get  foo bar" "python", hitInfo)],
    files := [("foo_bar_0101_0101.py", "print(1)")], genCalls := 0,
    loadCalls := 0, execCalls := 0 }

/-- A registry entry with `usage_count = 2` whose artifact file is missing. -/
def staleInfo : ScriptInfo :=
  { filename := "oldfoo_1231_2359.py", original_request := "show foo",
    language := "python", created_at := 0, usage_count := 2, last_used := none }

/-- A state holding `staleInfo` under the fingerprint of `"show foo"` but no
artifact files at all. -/
def staleState : EngineState :=
  { registryFile := .stored [(_get_request_hash "show foo" "python", staleInfo)],
    files := [], genCalls := 0, loadCalls := 0, execCalls := 0 }

/-- State after a cache-miss generation for `"show foo"` from the empty
state. -/
def missState : EngineState :=
  (generate_code_from_request stubGen true true time0101 emptyState
    "show foo" "python").2

/-- A fresh, heavily used registry entry. -/
def freshShared : ScriptInfo :=
  { filename := "f_0101_0101.py", original_request := "req one",
    language := "python", created_at := 100, usage_count := 5,
    last_used := some 100 }

/-- An idle, low-usage registry entry referencing the same artifact file as
`freshShared`. -/
def staleShared : ScriptInfo :=
  { filename := "f_0101_0101.py", original_request := "req two",
    language := "python", created_at := 0, usage_count := 1, last_used := none }

/-- A state where two fingerprints share one artifact file. -/
def sharedState : EngineState :=
  { registryFile := .stored [("k1", freshShared), ("k2", staleShared)],
    files := [("f_0101_0101.py", "print(1)")], genCalls := 0, loadCalls := 0,
    execCalls := 0 }

/-- A dead entry: its artifact file does not exist. -/
def deadEntry : ScriptInfo :=
  { filename := "gone_0101_0101.py", original_request := "req gone",
    language := "python", created_at := 100, usage_count := 5,
    last_used := some 100 }

/-- An idle, low-usage entry whose artifact exists. -/
def idleEntry : ScriptInfo :=
  { filename := "old_0101_0101.py", original_request := "req old",
    language := "python", created_at := 0, usage_count := 1, last_used := none }

/-- A recently used entry whose artifact exists. -/
def keptEntry : ScriptInfo :=
  { filename := "new_0101_0101.py", original_request := "req new",
    language := "python", created_at := 0, usage_count := 1, last_used := some 100 }

/-- A state exercising all three cleanup fates with distinct filenames. -/
def cleanupState : EngineState :=
  { registryFile := .stored [("a", deadEntry), ("b", idleEntry), ("c", keptEntry)],
    files := [("old_0101_0101.py", "print(1)"), ("new_0101_0101.py", "print(2)")],
    genCalls := 0, loadCalls := 0, execCalls := 0 }

set_option maxRecDepth 16000

/-! ## Helper lemmas -/

/-- If no candidate in the remaining registry beats the accumulator, the fuzzy
loop returns the accumulator unchanged. -/
theorem fuzzyLoop_no_update (files : Files) (request language : String) :
    ∀ (registry : Registry) (best : Option (String × String)) (bestSim : ℚ),
      (∀ p ∈ registry, p.2.language = language →
        fileExists files p.2.filename = true →
        ¬ (bestSim < combinedScore request p.2 ∧
           (3 / 4 : ℚ) < combinedScore request p.2)) →
      fuzzyLoop files request language registry (best, bestSim) = (best, bestSim) := by
  intro registry
  induction registry with
  | nil => intro best bestSim _; rfl
  | cons hd tl ih =>
    intro best bestSim h
    obtain ⟨k, info⟩ := hd
    by_cases hlang : info.language = language
    · by_cases hfile : fileExists files info.filename = true
      · have hni := h (k, info) (List.mem_cons_self _ _) hlang hfile
        simp only [fuzzyLoop, hlang, if_true, hfile, hni, if_false]
        exact ih best bestSim (fun p hp => h p (List.mem_cons_of_mem _ hp))
      · simp only [fuzzyLoop, hlang, if_true, Bool.not_eq_true] at hfile ⊢
        rw [hfile]
        simp only [Bool.false_eq_true, if_false]
        exact ih best bestSim (fun p hp => h p (List.mem_cons_of_mem _ hp))
    · simp only [fuzzyLoop, hlang, if_false]
      exact ih best bestSim (fun p hp => h p (List.mem_cons_of_mem _ hp))

/-- If the registry splits around a candidate that beats the threshold, beats
the running best, strictly beats every earlier candidate and is at least every
later candidate, the fuzzy loop returns exactly that candidate. -/
theorem fuzzyLoop_selects (files : Files) (request language : String) :
    ∀ (pre : Registry) (k : String) (info : ScriptInfo) (post : Registry)
      (best : Option (String × String)) (bestSim : ℚ),
      info.language = language →
      fileExists files info.filename = true →
      (3 / 4 : ℚ) < combinedScore request info →
      bestSim < combinedScore request info →
      (∀ p ∈ pre, p.2.language = language →
        fileExists files p.2.filename = true →
        combinedScore request p.2 < combinedScore request info) →
      (∀ p ∈ post, p.2.language = language →
        fileExists files p.2.filename = true →
        combinedScore request p.2 ≤ combinedScore request info) →
      fuzzyLoop files request language (pre ++ (k, info) :: post) (best, bestSim) =
        (some (info.filename, info.original_request), combinedScore request info) := by
  intro pre
  induction pre with
  | nil =>
    intro k info post best bestSim hlang hfile hthr hbest _ hpost
    simp only [List.nil_append, fuzzyLoop, hlang, if_true, hfile]
    rw [if_pos ⟨hbest, hthr⟩]
    exact fuzzyLoop_no_update files request language post _ _
      (fun p hp hl hf => by
        have := hpost p hp hl hf
        exact fun hc => absurd hc.1 (not_lt.mpr this))
  | cons hd tl ih =>
    intro k info post best bestSim hlang hfile hthr hbest hpre hpost
    obtain ⟨k0, info0⟩ := hd
    have hrest : ∀ p ∈ tl, p.2.language = language →
        fileExists files p.2.filename = true →
        combinedScore request p.2 < combinedScore request info :=
      fun p hp => hpre p (List.mem_cons_of_mem _ hp)
    by_cases hlang0 : info0.language = language
    · by_cases hfile0 : fileExists files info0.filename = true
      · have hlt := hpre (k0, info0) (List.mem_cons_self _ _) hlang0 hfile0
        by_cases hacc : bestSim < combinedScore request info0 ∧
            (3 / 4 : ℚ) < combinedScore request info0
        · simp only [List.cons_append, fuzzyLoop, hlang0, if_true, hfile0]
          rw [if_pos hacc]
          exact ih k info post _ _ hlang hfile hthr hlt hrest hpost
        · simp only [List.cons_append, fuzzyLoop, hlang0, if_true, hfile0]
          rw [if_neg hacc]
          exact ih k info post _ _ hlang hfile hthr hbest hrest hpost
      · simp only [Bool.not_eq_true] at hfile0
        simp only [List.cons_append, fuzzyLoop, hlang0, if_true, hfile0,
          Bool.false_eq_true, if_false]
        exact ih k info post _ _ hlang hfile hthr hbest hrest hpost
    · simp only [List.cons_append, fuzzyLoop, hlang0, if_false]
      exact ih k info post _ _ hlang hfile hthr hbest hrest hpost

/-! ## Claim C3 -/

/-- C3.  On an exact-fingerprint miss, the matcher scores every candidate
registry entry of the same language whose artifact file exists with
`0.7 * Jaccard(normalized request words) + 0.3 * Jaccard(stop-word-filtered
words)` (`combinedScore`); it reports a miss when no candidate scores strictly
above 0.75, and otherwise returns the candidate with the highest combined
score, ties broken in favour of the earliest-seen candidate. -/
theorem find_existing_script_fuzzy_selection (files : Files) (registry : Registry)
    (request language : String)
    (hmiss : exactLookup files registry request language = none) :
    ((∀ p ∈ registry, p.2.language = language →
        fileExists files p.2.filename = true →
        combinedScore request p.2 ≤ 3 / 4) →
      _find_existing_script files registry request language = none)
    ∧ (∀ (pre : Registry) (k : String) (info : ScriptInfo) (post : Registry),
        registry = pre ++ (k, info) :: post →
        info.language = language →
        fileExists files info.filename = true →
        (3 / 4 : ℚ) < combinedScore request info →
        (∀ p ∈ pre, p.2.language = language →
          fileExists files p.2.filename = true →
          combinedScore request p.2 < combinedScore request info) →
        (∀ p ∈ post, p.2.language = language →
          fileExists files p.2.filename = true →
          combinedScore request p.2 ≤ combinedScore request info) →
        _find_existing_script files registry request language =
          some (info.filename, info.original_request)) := by
  constructor
  · intro hlow
    simp only [_find_existing_script, hmiss]
    rw [fuzzyLoop_no_update files request language registry none 0
      (fun p hp hl hf hc => absurd hc.2 (not_lt.mpr (hlow p hp hl hf)))]
  · intro pre k info post hsplit hlang hfile hthr hpre hpost
    rw [hsplit] at hmiss ⊢
    simp only [_find_existing_script, hmiss]
    rw [fuzzyLoop_selects files request language pre k info post none 0
      hlang hfile hthr (lt_trans (by norm_num) hthr) hpre hpost]

/-- Witness for C3: a one-entry registry whose candidate scores
`1 * 0.7 + 1 * 0.3 = 1 > 0.75` against the request `"foo show"` (word set
identical to the stored request `"show foo"`, hence a different fingerprint
but full Jaccard overlap), and which the matcher therefore returns. -/
theorem find_existing_script_fuzzy_selection_witness :
    (exactLookup [("foo_0101_0101.py", "print(1)")]
        [(_get_request_hash "show foo" "python",
          ⟨"foo_0101_0101.py", "show foo", "python", 0, 1, none⟩)]
        "foo show" "python" = none)
    ∧ _find_existing_script [("foo_0101_0101.py", "print(1)")]
        [(_get_request_hash "show foo" "python",
          ⟨"foo_0101_0101.py", "show foo", "python", 0, 1, none⟩)]
        "foo show" "python" = some ("foo_0101_0101.py", "show foo") := by
  have hmiss : exactLookup [("foo_0101_0101.py", "print(1)")]
      [(_get_request_hash "show foo" "python",
        ⟨"foo_0101_0101.py", "show foo", "python", 0, 1, none⟩)]
      "foo show" "python" = none := by decide
  have hrs : _calculate_similarity (_normalize_request "foo show")
      (_normalize_request "show foo") = 1 := by
    have h1 : pyWords (_normalize_request "foo show") = ["foo", "show"] := by decide
    have h2 : pyWords (_normalize_request "show foo") = ["show", "foo"] := by decide
    have h3 : wordInterCard ["foo", "show"] ["show", "foo"] = 2 := by decide
    have h4 : wordUnionCard ["foo", "show"] ["show", "foo"] = 2 := by decide
    simp only [_calculate_similarity, h1, h2, h3, h4]
    norm_num
  have hfs : _calculate_filename_similarity "foo show" "foo_0101_0101.py" = 1 := by
    have h1 : (pyWords (pyLower "foo show")).filter
        (fun w => w ∉ filenameStopWords) = ["foo"] := by decide
    have h2 : (pyWords (pyLower (String.mk
        ((stripTimestampSuffix (("foo_0101_0101.py" : String).data.takeWhile
          (fun c => c ≠ '.'))).map (fun c => if c = '_' then ' ' else c))))).filter
        (fun w => w ∉ filenameStopWords) = ["foo"] := by decide
    have h3 : wordInterCard ["foo"] ["foo"] = 1 := by decide
    have h4 : wordUnionCard ["foo"] ["foo"] = 1 := by decide
    simp only [_calculate_filename_similarity, h1, h2, h3, h4]
    norm_num
  have hscore : combinedScore "foo show"
      ⟨"foo_0101_0101.py", "show foo", "python", 0, 1, none⟩ = 1 := by
    simp only [combinedScore, hrs, hfs]
    norm_num
  refine ⟨hmiss, ?_⟩
  exact (find_existing_script_fuzzy_selection _ _ _ _ hmiss).2 [] _ _ [] rfl rfl
    (by decide) (by rw [hscore]; norm_num)
    (fun p hp => absurd hp (List.not_mem_nil p))
    (fun p hp => absurd hp (List.not_mem_nil p))

/-! ## Claim C1 -/

/-- C1.  Whenever the lower-cased request contains a deny-listed keyword or
deny-listed semantic pattern (case-insensitive substring containment),
`generate_code_from_request` raises a security violation naming the first
matching term (keywords are scanned first and reported `.strip()`-ed), and the
engine state is returned untouched: the registry is never read
(`loadCalls` unchanged), the generator is never invoked (`genCalls`
unchanged), no artifact file or registry entry is created (`files` and
`registryFile` unchanged), and — via `create_and_execute_tool` — no script is
executed (`execCalls` unchanged). -/
theorem generate_rejects_denied_requests
    (gen : String → String → Except String String) (proc : ProcOutcome)
    (ai_enabled saveOk : Bool) (now : PyTime) (st : EngineState)
    (user_request preferred_language : String)
    (h : (dangerous_keywords ++ dangerous_patterns).any
      (fun t => containsSubstr t (pyLower user_request)) = true) :
    ∃ e, generate_code_from_request gen ai_enabled saveOk now st user_request
        preferred_language = (.error e, st)
      ∧ create_and_execute_tool gen proc ai_enabled saveOk now st user_request
          preferred_language = (.failed e user_request, st)
      ∧ ((∃ keyword, dangerous_keywords.find?
            (fun t => containsSubstr t (pyLower user_request)) = some keyword
            ∧ e = .securityViolationKeyword (pyStrip keyword))
        ∨ (dangerous_keywords.find?
            (fun t => containsSubstr t (pyLower user_request)) = none
          ∧ ∃ pat, dangerous_patterns.find?
              (fun t => containsSubstr t (pyLower user_request)) = some pat
            ∧ e = .securityViolationPattern pat)) := by
  cases hk : dangerous_keywords.find?
      (fun t => containsSubstr t (pyLower user_request)) with
  | some keyword =>
    refine ⟨.securityViolationKeyword (pyStrip keyword), ?_, ?_, ?_⟩
    · simp only [generate_code_from_request, hk]
    · simp only [create_and_execute_tool, generate_code_from_request, hk]
    · exact Or.inl ⟨keyword, rfl, rfl⟩
  | none =>
    have hnk := List.find?_eq_none.mp hk
    have hpat : ∃ pat ∈ dangerous_patterns,
        containsSubstr pat (pyLower user_request) = true := by
      rcases List.any_eq_true.mp h with ⟨t, ht, hpt⟩
      rcases List.mem_append.mp ht with h1 | h2
      · exact absurd hpt (by simpa using hnk t h1)
      · exact ⟨t, h2, hpt⟩
    have hsome : (dangerous_patterns.find?
        (fun t => containsSubstr t (pyLower user_request))).isSome = true := by
      rcases hpat with ⟨pat, hmem, hcs⟩
      exact List.find?_isSome.mpr ⟨pat, hmem, hcs⟩
    rcases Option.isSome_iff_exists.mp hsome with ⟨pat, hp⟩
    refine ⟨.securityViolationPattern pat, ?_, ?_, ?_⟩
    · simp only [generate_code_from_request, hk, hp]
    · simp only [create_and_execute_tool, generate_code_from_request, hk, hp]
    · exact Or.inr ⟨rfl, pat, hp, rfl⟩

/-- Witness for C1 at the request `"delete my files"`, whose lower-cased text
contains the deny-listed keyword `"delete "`. -/
theorem generate_rejects_denied_requests_witness :
    ((dangerous_keywords ++ dangerous_patterns).any
      (fun t => containsSubstr t (pyLower "delete my files")) = true)
    ∧ ∃ e, generate_code_from_request stubGen true true time0101 emptyState
        "delete my files" "auto" = (.error e, emptyState)
      ∧ create_and_execute_tool stubGen (.completed 0 "" "") true true time0101
          emptyState "delete my files" "auto" = (.failed e "delete my files", emptyState)
      ∧ ((∃ keyword, dangerous_keywords.find?
            (fun t => containsSubstr t (pyLower "delete my files")) = some keyword
            ∧ e = .securityViolationKeyword (pyStrip keyword))
        ∨ (dangerous_keywords.find?
            (fun t => containsSubstr t (pyLower "delete my files")) = none
          ∧ ∃ pat, dangerous_patterns.find?
              (fun t => containsSubstr t (pyLower "delete my files")) = some pat
            ∧ e = .securityViolationPattern pat)) :=
  ⟨by decide, generate_rejects_denied_requests stubGen (.completed 0 "" "") true
    true time0101 emptyState "delete my files" "auto" (by decide)⟩

/-! ## Claim C4 -/

/-- C4.  When the child process does not finish within the configured timeout
(default 30), `execute_script` kills the process and awaits it, classifies the
run as timed out, and returns a failing result whose stdout is empty and whose
stderr carries only the timeout message: no output produced before
termination is preserved. -/
theorem execute_script_timeout_discards_output (st : EngineState)
    (code language filename : String) (timeout : Int) :
    execute_script .timedOut st code language filename timeout =
      ((false, "", timeoutMessage timeout),
       { killed := true, awaited := true, timedOut := true },
       { st with files := setFile st.files filename code,
                 execCalls := st.execCalls + 1 }) := rfl

/-! ## Claim C7 -/

/-- C7.  A missing or unparsable registry file loads as the empty registry
instead of raising, so every subsequent lookup is a cache miss; and a failed
registry save is swallowed: the value returned to the caller by
`generate_code_from_request` is identical whether the save succeeds or fails. -/
theorem registry_fault_tolerance :
    (_load_script_registry .missing = [] ∧ _load_script_registry .corrupt = [])
    ∧ (∀ (files : Files) (request language : String),
        _find_existing_script files (_load_script_registry .missing)
          request language = none
        ∧ _find_existing_script files (_load_script_registry .corrupt)
            request language = none)
    ∧ (∀ (gen : String → String → Except String String) (ai_enabled : Bool)
        (now : PyTime) (st : EngineState) (user_request preferred_language : String),
        (generate_code_from_request gen ai_enabled false now st user_request
          preferred_language).1 =
        (generate_code_from_request gen ai_enabled true now st user_request
          preferred_language).1) := by
  refine ⟨⟨rfl, rfl⟩, fun files request language => ⟨rfl, rfl⟩, ?_⟩
  intro gen ai_enabled now st user_request preferred_language
  cases hk : dangerous_keywords.find?
      (fun t => containsSubstr t (pyLower user_request)) with
  | some keyword => simp only [generate_code_from_request, hk]
  | none =>
    cases hp : dangerous_patterns.find?
        (fun t => containsSubstr t (pyLower user_request)) with
    | some pat => simp only [generate_code_from_request, hk, hp]
    | none =>
      cases hfind : _find_existing_script st.files
          (_load_script_registry st.registryFile) user_request
          (determineLanguage (pyLower user_request) preferred_language) with
      | some result =>
        obtain ⟨filename, original⟩ := result
        simp only [generate_code_from_request, hk, hp, loadRegistry, hfind]
      | none =>
        cases ai_enabled with
        | false =>
          simp only [generate_code_from_request, hk, hp, loadRegistry, hfind]
          simp
        | true =>
          cases hgen : gen user_request
              (determineLanguage (pyLower user_request) preferred_language) with
          | error msg =>
            simp only [generate_code_from_request, hk, hp, loadRegistry, hfind, hgen]
          | ok code =>
            simp only [generate_code_from_request, hk, hp, loadRegistry, hfind, hgen]
            simp

/-! ## Claim C9 -/

/-- Counterexample to C9: `"time"` is a synonym of the canonical phrase
`"current time"`, but the text `"time"` and the same text with the synonym
occurrence written as its canonical phrase (`"current time"`) do not produce
the same normalized key — replacement re-triggers on the `"time"` inside the
already-canonical phrase, yielding `"current current time"`. -/
theorem normalize_synonym_counterexample :
    _normalize_request "time" = "current time"
    ∧ _normalize_request "current time" = "current current time"
    ∧ _normalize_request "time" ≠ _normalize_request "current time" := by
  refine ⟨by decide, by decide, by decide⟩

/-- C9 as amended.  For every canonical phrase of the table except
`"current time"`, `"memory usage"` and `"uptime"` (whose canonical forms
contain one of their own synonyms, or a synonym of an earlier row, as a
substring, so replacement re-triggers inside them), each synonym phrase
normalizes to exactly the canonical phrase; in particular `"hostname"`,
`"server name"` and `"computer name"` all produce the key `"computer name"`. -/
theorem normalize_synonyms_amended :
    ((variations.filter (fun p =>
        p.1 ≠ "current time" ∧ p.1 ≠ "memory usage" ∧ p.1 ≠ "uptime")).all
      (fun p => p.2.all (fun v => _normalize_request v == p.1)) = true)
    ∧ _normalize_request "hostname" = "computer name"
    ∧ _normalize_request "server name" = "computer name"
    ∧ _normalize_request "computer name" = "computer name" := by
  refine ⟨by decide, by decide, by decide, by decide⟩

/-! ## Claim C10 -/

/-- C10.  Normalization is not idempotent: on the input `"memory usage"`
(already the canonical phrase) a single application yields
`"memory usage usage"` — the synonym `"memory"` is substituted inside the
canonical phrase — and a second application yields a different string again. -/
theorem normalize_not_idempotent :
    _normalize_request "memory usage" = "memory usage usage"
    ∧ _normalize_request (_normalize_request "memory usage") =
        "memory usage usage usage"
    ∧ _normalize_request (_normalize_request "memory usage") ≠
        _normalize_request "memory usage" := by
  refine ⟨by decide, by decide, by decide⟩

/-! ## Claim C2 -/

/-- If the first registry entry carrying `filename` is the binding of `h`,
then `bumpFirstUsage` increments exactly that binding. -/
theorem bumpFirstUsage_dictGet (filename : String) (day : Int) :
    ∀ (registry : Registry) (h : String) (info : ScriptInfo),
      dictGet registry h = some info → info.filename = filename →
      (∀ p ∈ registry, p.2.filename = filename → p.1 = h ∧ p.2 = info) →
      dictGet (bumpFirstUsage registry filename day) h =
        some { info with
          usage_count := info.usage_count + 1
          last_used := some day } := by
  intro registry
  induction registry with
  | nil => intro h info hget; exact absurd hget (by simp [dictGet])
  | cons hd tl ih =>
    intro h info hget hfn huniq
    obtain ⟨k0, e0⟩ := hd
    by_cases hmatch : e0.filename = filename
    · obtain ⟨hk0, he0⟩ := huniq (k0, e0) (List.mem_cons_self _ _) hmatch
      subst hk0 he0
      simp only [bumpFirstUsage, hmatch, if_true, dictGet, if_pos rfl]
    · have hk0 : k0 ≠ h := by
        intro hk
        rw [dictGet, if_pos hk] at hget
        injection hget with hget
        exact hmatch (hget ▸ hfn)
      rw [dictGet, if_neg hk0] at hget
      simp only [bumpFirstUsage, hmatch, if_false, dictGet, if_neg hk0]
      exact ih h info hget hfn
        (fun p hp => huniq p (List.mem_cons_of_mem _ hp))

/-- Counterexample to C2, as stated.  The deny-list scan runs on the raw
lower-cased text while the cache key uses the whitespace-collapsed normalized
text, so the two can disagree: a first call with `"kill\tx"` (tab hides the
deny keyword `"kill "`) passes validation and registers an artifact; a second
call with `"kill x"` — identical normalized text, identical language, the
registered artifact file present — is not a cache hit but a security
violation. -/
theorem exact_cache_hit_counterexample :
    _normalize_request "kill\tx" = _normalize_request "kill x"
    ∧ (generate_code_from_request stubGen true true time0101 emptyState
        "kill\tx" "python").1 =
        .ok ("print(1)", "python", "kill_0101_0101.py", false)
    ∧ fileExists killState2.files "kill_0101_0101.py" = true
    ∧ dictGet (_load_script_registry killState2.registryFile)
        (_get_request_hash "kill x" "python") =
        some { filename := "kill_0101_0101.py", original_request := "kill\tx",
               language := "python", created_at := 0, usage_count := 1,
               last_used := none }
    ∧ generate_code_from_request stubGen true true { day := 1, stamp := "0101_0102" }
        killState2 "kill x" "python" =
        (.error (.securityViolationKeyword "kill"), killState2) := by
  refine ⟨by decide, by decide, by decide, by decide, by decide⟩

/-- C2 as amended.  For two calls with identical normalized text and identical
resolved language, where the first call registered an entry whose artifact
file still exists — and provided the second request also passes the security
deny-list scan on its raw lower-cased text, no other entry shares the
artifact filename, and the registry save succeeds — the second call is an
exact cache hit: it returns the stored filename with `is_reused = true`, does
not invoke the generator and creates no file (`genCalls` and `files`
unchanged), and increments that entry's `usage_count` by one while setting
its `last_used` timestamp. -/
theorem generate_exact_cache_hit
    (gen : String → String → Except String String) (ai_enabled : Bool)
    (now : PyTime) (st : EngineState) (req1 req2 pref2 lang : String)
    (info : ScriptInfo)
    (hk : dangerous_keywords.find? (fun t => containsSubstr t (pyLower req2)) = none)
    (hp : dangerous_patterns.find? (fun t => containsSubstr t (pyLower req2)) = none)
    (hlang : determineLanguage (pyLower req2) pref2 = lang)
    (hnorm : _normalize_request req1 = _normalize_request req2)
    (hreg : dictGet (_load_script_registry st.registryFile)
      (_get_request_hash req1 lang) = some info)
    (hfile : fileExists st.files info.filename = true)
    (huniq : ∀ p ∈ _load_script_registry st.registryFile,
      p.2.filename = info.filename → p.1 = _get_request_hash req1 lang ∧ p.2 = info) :
    generate_code_from_request gen ai_enabled true now st req2 pref2 =
      (.ok ((getFile st.files info.filename).getD "", lang, info.filename, true),
       { registryFile := .stored (bumpFirstUsage
           (_load_script_registry st.registryFile) info.filename now.day),
         files := st.files, genCalls := st.genCalls,
         loadCalls := st.loadCalls + 2, execCalls := st.execCalls })
    ∧ dictGet (bumpFirstUsage (_load_script_registry st.registryFile)
        info.filename now.day) (_get_request_hash req1 lang) =
        some { info with
               usage_count := info.usage_count + 1
               last_used := some now.day } := by
  have hash2 : _get_request_hash req2 lang = _get_request_hash req1 lang := by
    unfold _get_request_hash
    rw [hnorm]
  have hexact : exactLookup st.files (_load_script_registry st.registryFile)
      req2 lang = some (info.filename, info.original_request) := by
    simp only [exactLookup, hash2, hreg, hfile, if_true]
  have hfind : _find_existing_script st.files
      (_load_script_registry st.registryFile) req2 lang =
      some (info.filename, info.original_request) := by
    simp only [_find_existing_script, hexact]
  constructor
  · simp only [generate_code_from_request, hk, hp, hlang, loadRegistry, hfind,
      _update_script_usage, _save_script_registry, if_true, getFile]
  · exact bumpFirstUsage_dictGet info.filename now.day
      (_load_script_registry st.registryFile) _ info hreg rfl huniq

/-- Witness for C2 (amended): the request `"get foo bar"` hits the entry
registered for `"get  foo bar"` (same normalized text) and bumps its usage
count to 2. -/
theorem generate_exact_cache_hit_witness :
    (dangerous_keywords.find?
      (fun t => containsSubstr t (pyLower "get foo bar")) = none)
    ∧ (dangerous_patterns.find?
        (fun t => containsSubstr t (pyLower "get foo bar")) = none)
    ∧ determineLanguage (pyLower "get foo bar") "python" = "python"
    ∧ _normalize_request "get  foo bar" = _normalize_request "get foo bar"
    ∧ dictGet (_load_script_registry hitState.registryFile)
        (_get_request_hash "get  foo bar" "python") = some hitInfo
    ∧ fileExists hitState.files hitInfo.filename = true
    ∧ (∀ p ∈ _load_script_registry hitState.registryFile,
        p.2.filename = hitInfo.filename →
        p.1 = _get_request_hash "get  foo bar" "python" ∧ p.2 = hitInfo)
    ∧ (generate_code_from_request stubGen true true time0101 hitState
          "get foo bar" "python" =
        (.ok ((getFile hitState.files hitInfo.filename).getD "", "python",
          hitInfo.filename, true),
         { registryFile := .stored (bumpFirstUsage
             (_load_script_registry hitState.registryFile) hitInfo.filename
             time0101.day),
           files := hitState.files, genCalls := hitState.genCalls,
           loadCalls := hitState.loadCalls + 2, execCalls := hitState.execCalls })
      ∧ dictGet (bumpFirstUsage (_load_script_registry hitState.registryFile)
          hitInfo.filename time0101.day)
          (_get_request_hash "get  foo bar" "python") =
          some { hitInfo with
                 usage_count := hitInfo.usage_count + 1
                 last_used := some time0101.day }) :=
  ⟨by decide, by decide, by decide, by decide, by decide, by decide, by decide,
   generate_exact_cache_hit stubGen true time0101 hitState "get  foo bar"
     "get foo bar" "python" "python" hitInfo (by decide) (by decide) (by decide)
     (by decide) (by decide) (by decide) (by decide)⟩

/-! ## Claim C5 -/

/-- Dict assignment stores the assigned value under the assigned key. -/
theorem dictGet_dictSet_self {α : Type} (key : String) (v : α) :
    ∀ d : List (String × α), dictGet (dictSet d key v) key = some v := by
  intro d
  induction d with
  | nil => simp [dictSet, dictGet]
  | cons hd tl ih =>
    obtain ⟨k0, w0⟩ := hd
    by_cases hk : k0 = key
    · simp [dictSet, hk, dictGet]
    · simp only [dictSet, hk, if_false, dictGet, if_neg hk]
      exact ih

/-- Counterexample to C5, as stated.  A fingerprint that already has an entry
with `usage_count = 2` (whose artifact file is missing, so the lookup is a
miss) is re-registered by a new generation for the same request, and the
entry's `usage_count` drops from 2 to 1 while the fingerprint stays bound:
`_register_script` overwrites usage metadata unconditionally. -/
theorem usage_count_monotonic_counterexample :
    dictGet (_load_script_registry staleState.registryFile)
        (_get_request_hash "show foo" "python") = some staleInfo
    ∧ staleInfo.usage_count = 2
    ∧ (generate_code_from_request stubGen true true time0101 staleState
        "show foo" "python").1 =
        .ok ("print(1)", "python", "foo_0101_0101.py", false)
    ∧ dictGet (_load_script_registry (generate_code_from_request stubGen true
          true time0101 staleState "show foo" "python").2.registryFile)
        (_get_request_hash "show foo" "python") =
        some { filename := "foo_0101_0101.py", original_request := "show foo",
               language := "python", created_at := 0, usage_count := 1,
               last_used := none } := by
  refine ⟨by decide, by decide, by decide, by decide⟩

/-- C5 as amended.  `usage_count` never decreases under recording a hit
(`_update_script_usage` only increments the matched entry and leaves the rest
unchanged) or under cleanup (every surviving binding is one of the original
bindings, value untouched); but re-registering a fingerprint that already has
an entry is an overwrite that resets `usage_count` to 1, so monotonicity does
not extend to `_register_script`. -/
theorem usage_count_monotonic_amended :
    (∀ (registry : Registry) (filename : String) (day : Int) (k : String)
        (e' : ScriptInfo),
      dictGet (bumpFirstUsage registry filename day) k = some e' →
      ∃ e, dictGet registry k = some e ∧ e.usage_count ≤ e'.usage_count)
    ∧ (∀ (saveOk : Bool) (now : PyTime) (st : EngineState) (maxd : Int)
        (p : String × ScriptInfo),
      p ∈ _load_script_registry
        (cleanup_old_scripts saveOk now st maxd).registryFile →
      p ∈ _load_script_registry st.registryFile)
    ∧ (∀ (saveOk : Bool) (now : PyTime) (st : EngineState)
        (request language filename : String), saveOk = true →
      dictGet (_load_script_registry
          (_register_script saveOk now st request language filename).registryFile)
        (_get_request_hash request language) =
        some { filename := filename, original_request := request,
               language := language, created_at := now.day, usage_count := 1,
               last_used := none }) := by
  refine ⟨?_, ?_, ?_⟩
  · intro registry filename day
    induction registry with
    | nil => intro k e' h; exact absurd h (by simp [bumpFirstUsage, dictGet])
    | cons hd tl ih =>
      intro k e' h
      obtain ⟨k0, e0⟩ := hd
      by_cases hmatch : e0.filename = filename
      · simp only [bumpFirstUsage, hmatch, if_true] at h
        by_cases hk : k0 = k
        · rw [dictGet, if_pos hk] at h
          injection h with h
          refine ⟨e0, by rw [dictGet, if_pos hk], ?_⟩
          rw [← h]
          exact Nat.le_succ _
        · rw [dictGet, if_neg hk] at h
          refine ⟨e', ?_, le_refl _⟩
          rw [dictGet, if_neg hk]
          exact h
      · simp only [bumpFirstUsage, hmatch, if_false] at h
        by_cases hk : k0 = k
        · rw [dictGet, if_pos hk] at h
          injection h with h
          exact ⟨e0, by rw [dictGet, if_pos hk], by rw [h]⟩
        · rw [dictGet, if_neg hk] at h
          obtain ⟨e, he, hle⟩ := ih k e' h
          refine ⟨e, ?_, hle⟩
          rw [dictGet, if_neg hk]
          exact he
  · intro saveOk now st maxd p hp
    unfold cleanup_old_scripts loadRegistry _save_script_registry at hp
    by_cases hempty : (cleanupScan now.day maxd
        (_load_script_registry st.registryFile)
        { st with loadCalls := st.loadCalls + 1 }.files).2.isEmpty = true
    · simp only [hempty, if_true] at hp
      exact hp
    · simp only [hempty, Bool.false_eq_true, if_false] at hp
      cases saveOk with
      | false => simpa using hp
      | true =>
        simp only [if_true] at hp
        exact List.mem_of_mem_filter hp
  · intro saveOk now st request language filename hsave
    subst hsave
    unfold _register_script loadRegistry _save_script_registry
    simp only [if_true]
    exact dictGet_dictSet_self _ _ _

/-- Witness for C5 (amended), at a singleton registry: the hit bump raises the
usage count from 1 to 2, cleanup on `cleanupState` only keeps original
bindings, and a registration stores a fresh entry with `usage_count = 1`. -/
theorem usage_count_monotonic_amended_witness :
    (dictGet (bumpFirstUsage [(_get_request_hash "get  foo bar" "python",
        hitInfo)] hitInfo.filename 0) (_get_request_hash "get  foo bar" "python") =
      some { hitInfo with usage_count := 2, last_used := some 0 })
    ∧ (∃ e, dictGet [(_get_request_hash "get  foo bar" "python", hitInfo)]
        (_get_request_hash "get  foo bar" "python") = some e ∧
        e.usage_count ≤ 2)
    ∧ (("c", keptEntry) ∈ _load_script_registry
        (cleanup_old_scripts true { day := 100, stamp := "x" } cleanupState
          30).registryFile →
      ("c", keptEntry) ∈ _load_script_registry cleanupState.registryFile)
    ∧ dictGet (_load_script_registry (_register_script true time0101 emptyState
        "show foo" "python" "foo_0101_0101.py").registryFile)
        (_get_request_hash "show foo" "python") =
        some { filename := "foo_0101_0101.py", original_request := "show foo",
               language := "python", created_at := 0, usage_count := 1,
               last_used := none } := by
  have hbump : dictGet (bumpFirstUsage [(_get_request_hash "get  foo bar"
      "python", hitInfo)] hitInfo.filename 0)
      (_get_request_hash "get  foo bar" "python") =
      some { hitInfo with usage_count := 2, last_used := some 0 } := by decide
  refine ⟨hbump, ?_, ?_, ?_⟩
  · obtain ⟨e, he, hle⟩ := usage_count_monotonic_amended.1
      [(_get_request_hash "get  foo bar" "python", hitInfo)] hitInfo.filename 0
      (_get_request_hash "get  foo bar" "python")
      { hitInfo with usage_count := 2, last_used := some 0 } hbump
    exact ⟨e, he, hle⟩
  · exact usage_count_monotonic_amended.2.1 true { day := 100, stamp := "x" }
      cleanupState 30 ("c", keptEntry)
  · exact usage_count_monotonic_amended.2.2 true time0101 emptyState
      "show foo" "python" "foo_0101_0101.py" rfl

/-! ## Claim C6 -/

/-- Counterexample to C6, as stated.  On a validated cache miss the engine
registers the fingerprint *before* any artifact file exists: right after
`generate_code_from_request` returns, the registry binds the fingerprint of
`"show foo"` to the synthesized filename, yet that file is not on disk (it is
only written later, by `execute_script`).  So it is false that at every point
where a registry entry exists its artifact file already exists. -/
theorem pipeline_order_counterexample :
    (generate_code_from_request stubGen true true time0101 emptyState
        "show foo" "python").1 =
        .ok ("print(1)", "python", "foo_0101_0101.py", false)
    ∧ dictGet (_load_script_registry missState.registryFile)
        (_get_request_hash "show foo" "python") =
        some { filename := "foo_0101_0101.py", original_request := "show foo",
               language := "python", created_at := 0, usage_count := 1,
               last_used := none }
    ∧ fileExists missState.files "foo_0101_0101.py" = false := by
  refine ⟨by decide, by decide, by decide⟩

/-- C6 as amended.  On a validated cache miss with successful generation the
order is: invoke the generator, synthesize the filename, register the
fingerprint, and only then — inside `execute_script` — store the artifact and
execute it.  `generate_code_from_request` returns with the generator invoked
once (`genCalls + 1`), the fingerprint registered, and the artifact directory
untouched; after `create_and_execute_tool` finishes, the artifact file exists
with the generated code and exactly one process was spawned, so the
entry-implies-file invariant claimed by C6 holds only from the store step
onwards, not between registration and storage. -/
theorem pipeline_order_amended
    (gen : String → String → Except String String) (proc : ProcOutcome)
    (now : PyTime) (st : EngineState) (req pref lang code : String)
    (hk : dangerous_keywords.find? (fun t => containsSubstr t (pyLower req)) = none)
    (hp : dangerous_patterns.find? (fun t => containsSubstr t (pyLower req)) = none)
    (hlang : determineLanguage (pyLower req) pref = lang)
    (hfind : _find_existing_script st.files
      (_load_script_registry st.registryFile) req lang = none)
    (hgen : gen req lang = .ok code) :
    generate_code_from_request gen true true now st req pref =
      (.ok (code, lang, _generate_semantic_filename now req lang, false),
       { registryFile := .stored (dictSet (_load_script_registry st.registryFile)
           (_get_request_hash req lang)
           { filename := _generate_semantic_filename now req lang,
             original_request := req, language := lang, created_at := now.day,
             usage_count := 1, last_used := none }),
         files := st.files, genCalls := st.genCalls + 1,
         loadCalls := st.loadCalls + 2, execCalls := st.execCalls })
    ∧ dictGet (dictSet (_load_script_registry st.registryFile)
        (_get_request_hash req lang)
        { filename := _generate_semantic_filename now req lang,
          original_request := req, language := lang, created_at := now.day,
          usage_count := 1, last_used := none }) (_get_request_hash req lang) =
        some { filename := _generate_semantic_filename now req lang,
               original_request := req, language := lang, created_at := now.day,
               usage_count := 1, last_used := none }
    ∧ (create_and_execute_tool gen proc true true now st req pref).2.files =
        setFile st.files (_generate_semantic_filename now req lang) code
    ∧ getFile (create_and_execute_tool gen proc true true now st req pref).2.files
        (_generate_semantic_filename now req lang) = some code
    ∧ (create_and_execute_tool gen proc true true now st req pref).2.execCalls =
        st.execCalls + 1 := by
  have hmain : generate_code_from_request gen true true now st req pref =
      (.ok (code, lang, _generate_semantic_filename now req lang, false),
       { registryFile := .stored (dictSet (_load_script_registry st.registryFile)
           (_get_request_hash req lang)
           { filename := _generate_semantic_filename now req lang,
             original_request := req, language := lang, created_at := now.day,
             usage_count := 1, last_used := none }),
         files := st.files, genCalls := st.genCalls + 1,
         loadCalls := st.loadCalls + 2, execCalls := st.execCalls }) := by
    simp only [generate_code_from_request, hk, hp, hlang, loadRegistry, hfind,
      hgen, _register_script, _save_script_registry, if_true]
  have hcate : create_and_execute_tool gen proc true true now st req pref =
      (let ((success, stdout, stderr), _effects, st2) :=
        execute_script proc
          { registryFile := .stored (dictSet (_load_script_registry st.registryFile)
              (_get_request_hash req lang)
              { filename := _generate_semantic_filename now req lang,
                original_request := req, language := lang, created_at := now.day,
                usage_count := 1, last_used := none }),
            files := st.files, genCalls := st.genCalls + 1,
            loadCalls := st.loadCalls + 2, execCalls := st.execCalls }
          code lang (_generate_semantic_filename now req lang) 30
       (.completed success req lang (_generate_semantic_filename now req lang)
         code stdout stderr false, st2)) := by
    simp only [create_and_execute_tool, hmain]
  refine ⟨hmain, dictGet_dictSet_self _ _ _, ?_, ?_, ?_⟩ <;>
    rw [hcate] <;> cases proc <;>
    simp [execute_script, getFile, setFile, dictGet_dictSet_self]

/-- Witness for C6 (amended) at the request `"show foo"` from the empty state,
with a child process that completes normally. -/
theorem pipeline_order_amended_witness :
    (dangerous_keywords.find?
      (fun t => containsSubstr t (pyLower "show foo")) = none)
    ∧ (dangerous_patterns.find?
        (fun t => containsSubstr t (pyLower "show foo")) = none)
    ∧ determineLanguage (pyLower "show foo") "python" = "python"
    ∧ _find_existing_script emptyState.files
        (_load_script_registry emptyState.registryFile) "show foo" "python" = none
    ∧ stubGen "show foo" "python" = .ok "print(1)"
    ∧ (generate_code_from_request stubGen true true time0101 emptyState
          "show foo" "python" =
        (.ok ("print(1)", "python",
          _generate_semantic_filename time0101 "show foo" "python", false),
         { registryFile := .stored (dictSet
             (_load_script_registry emptyState.registryFile)
             (_get_request_hash "show foo" "python")
             { filename := _generate_semantic_filename time0101 "show foo" "python",
               original_request := "show foo", language := "python",
               created_at := time0101.day, usage_count := 1, last_used := none }),
           files := emptyState.files, genCalls := emptyState.genCalls + 1,
           loadCalls := emptyState.loadCalls + 2,
           execCalls := emptyState.execCalls })
      ∧ dictGet (dictSet (_load_script_registry emptyState.registryFile)
          (_get_request_hash "show foo" "python")
          { filename := _generate_semantic_filename time0101 "show foo" "python",
            original_request := "show foo", language := "python",
            created_at := time0101.day, usage_count := 1, last_used := none })
          (_get_request_hash "show foo" "python") =
          some { filename := _generate_semantic_filename time0101 "show foo" "python",
                 original_request := "show foo", language := "python",
                 created_at := time0101.day, usage_count := 1, last_used := none }
      ∧ (create_and_execute_tool stubGen (.completed 0 "ok" "") true true
          time0101 emptyState "show foo" "python").2.files =
          setFile emptyState.files
            (_generate_semantic_filename time0101 "show foo" "python") "print(1)"
      ∧ getFile (create_and_execute_tool stubGen (.completed 0 "ok" "") true true
          time0101 emptyState "show foo" "python").2.files
          (_generate_semantic_filename time0101 "show foo" "python") =
          some "print(1)"
      ∧ (create_and_execute_tool stubGen (.completed 0 "ok" "") true true
          time0101 emptyState "show foo" "python").2.execCalls =
          emptyState.execCalls + 1) :=
  ⟨by decide, by decide, by decide, by decide, rfl,
   pipeline_order_amended stubGen (.completed 0 "ok" "") time0101 emptyState
     "show foo" "python" "python" "print(1)" (by decide) (by decide) (by decide)
     (by decide) rfl⟩

/-! ## Claim C8 -/

/-- Deleting a file makes it absent. -/
theorem removeFile_get_self (filename : String) :
    ∀ fs : Files, dictGet (removeFile fs filename) filename = none := by
  intro fs
  induction fs with
  | nil => rfl
  | cons hd tl ih =>
    obtain ⟨fn0, c0⟩ := hd
    by_cases hfn : fn0 = filename
    · simp only [removeFile, hfn, if_true]
      exact ih
    · simp only [removeFile, hfn, if_false, dictGet, if_neg hfn]
      exact ih

/-- Deleting a file leaves every other file untouched. -/
theorem removeFile_get_other (filename other : String) (hne : other ≠ filename) :
    ∀ fs : Files, dictGet (removeFile fs filename) other = dictGet fs other := by
  intro fs
  induction fs with
  | nil => rfl
  | cons hd tl ih =>
    obtain ⟨fn0, c0⟩ := hd
    by_cases hfn : fn0 = filename
    · simp only [removeFile, hfn, if_true, dictGet, if_neg (Ne.symm hne)]
      exact ih
    · simp only [removeFile, hfn, if_false, dictGet]
      by_cases ho : fn0 = other
      · rw [if_pos ho, if_pos ho]
      · rw [if_neg ho, if_neg ho]
        exact ih

/-- Behaviour of the cleanup scan when no two registry entries share an
artifact filename: (1) a file not owned by any deletable entry keeps its
content; (2) an entry whose file is missing is marked for removal; (3) an
idle low-usage entry with an existing file is marked for removal and its file
is deleted; (4) every removal mark comes from an entry that was missing its
file or idle with low usage. -/
theorem cleanupScan_spec (nowDay maxd : Int) :
    ∀ (R : Registry) (fs : Files),
      (R.map (fun p => p.2.filename)).Nodup →
      (∀ fn, (∀ p ∈ R, ¬(p.2.filename = fn ∧ fileExists fs p.2.filename = true ∧
          maxd < nowDay - lastUsedOf p.2 ∧ p.2.usage_count ≤ 2)) →
        dictGet (cleanupScan nowDay maxd R fs).1 fn = dictGet fs fn)
      ∧ (∀ p ∈ R, fileExists fs p.2.filename = false →
          p.1 ∈ (cleanupScan nowDay maxd R fs).2)
      ∧ (∀ p ∈ R, fileExists fs p.2.filename = true →
          maxd < nowDay - lastUsedOf p.2 → p.2.usage_count ≤ 2 →
          p.1 ∈ (cleanupScan nowDay maxd R fs).2 ∧
          dictGet (cleanupScan nowDay maxd R fs).1 p.2.filename = none)
      ∧ (∀ k, k ∈ (cleanupScan nowDay maxd R fs).2 →
          ∃ p, p ∈ R ∧ p.1 = k ∧ (fileExists fs p.2.filename = false ∨
            (maxd < nowDay - lastUsedOf p.2 ∧ p.2.usage_count ≤ 2))) := by
  intro R
  induction R with
  | nil =>
    intro fs _
    refine ⟨fun fn _ => rfl, fun p hp => absurd hp (List.not_mem_nil p),
      fun p hp => absurd hp (List.not_mem_nil p),
      fun k hk => absurd hk (List.not_mem_nil k)⟩
  | cons hd rest ih =>
    intro fs hnodup
    obtain ⟨k, e⟩ := hd
    rw [List.map_cons, List.nodup_cons] at hnodup
    obtain ⟨hhead, hrest⟩ := hnodup
    have hne : ∀ p ∈ rest, p.2.filename ≠ e.filename := by
      intro p hp hcontra
      exact hhead (hcontra ▸ List.mem_map_of_mem (fun q => q.2.filename) hp)
    by_cases halive : fileExists fs e.filename = true
    · by_cases hstale : maxd < nowDay - lastUsedOf e ∧ e.usage_count ≤ 2
      · -- alive and stale: unlink the file, mark the key
        rcases h2 : cleanupScan nowDay maxd rest (removeFile fs e.filename)
          with ⟨fs2, rem2⟩
        have hscan : cleanupScan nowDay maxd ((k, e) :: rest) fs =
            (fs2, k :: rem2) := by
          simp only [cleanupScan, halive, if_true, if_pos hstale, h2]
        have hpres : ∀ p ∈ rest,
            fileExists (removeFile fs e.filename) p.2.filename =
            fileExists fs p.2.filename := by
          intro p hp
          unfold fileExists
          rw [removeFile_get_other e.filename p.2.filename (hne p hp) fs]
        have IH := ih (removeFile fs e.filename) hrest
        rw [h2] at IH
        obtain ⟨IH1, IH2, IH3, IH4⟩ := IH
        rw [hscan]
        refine ⟨?_, ?_, ?_, ?_⟩
        · intro fn hfn
          have hefn : e.filename ≠ fn := by
            intro hcontra
            exact hfn (k, e) (List.mem_cons_self _ _) ⟨hcontra, halive, hstale⟩
          have hstep : dictGet (removeFile fs e.filename) fn = dictGet fs fn :=
            removeFile_get_other e.filename fn (fun h => hefn h.symm) fs
          rw [← hstep]
          refine IH1 fn ?_
          intro p hp ⟨hpfn, hpex, hpstale⟩
          exact hfn p (List.mem_cons_of_mem _ hp)
            ⟨hpfn, by rw [← hpres p hp]; exact hpex, hpstale⟩
        · intro p hp hdead
          rcases List.mem_cons.mp hp with heq | hmem
          · exact heq ▸ List.mem_cons_self _ _
          · exact List.mem_cons_of_mem _
              (IH2 p hmem (by rw [hpres p hmem]; exact hdead))
        · intro p hp hpex hpidle hpuse
          rcases List.mem_cons.mp hp with heq | hmem
          · subst heq
            refine ⟨List.mem_cons_self _ _, ?_⟩
            have hnone : dictGet (removeFile fs e.filename) e.filename = none :=
              removeFile_get_self e.filename fs
            rw [← hnone]
            refine IH1 e.filename ?_
            intro p hp ⟨hpfn, _, _⟩
            exact hne p hp hpfn
          · have := IH3 p hmem (by rw [hpres p hmem]; exact hpex) hpidle hpuse
            exact ⟨List.mem_cons_of_mem _ this.1, this.2⟩
        · intro k' hk'
          rcases List.mem_cons.mp hk' with heq | hmem
          · exact ⟨(k, e), List.mem_cons_self _ _, heq.symm, Or.inr hstale⟩
          · obtain ⟨p, hp, hpk, hpcond⟩ := IH4 k' hmem
            refine ⟨p, List.mem_cons_of_mem _ hp, hpk, ?_⟩
            rcases hpcond with hdead | hstale'
            · exact Or.inl (by rw [← hpres p hp]; exact hdead)
            · exact Or.inr hstale'
      · -- alive and not stale: keep the entry, keep the file
        rcases h2 : cleanupScan nowDay maxd rest fs with ⟨fs2, rem2⟩
        have hscan : cleanupScan nowDay maxd ((k, e) :: rest) fs = (fs2, rem2) := by
          simp only [cleanupScan, halive, if_true, if_neg hstale, h2]
        have IH := ih fs hrest
        rw [h2] at IH
        obtain ⟨IH1, IH2, IH3, IH4⟩ := IH
        rw [hscan]
        refine ⟨?_, ?_, ?_, ?_⟩
        · intro fn hfn
          exact IH1 fn (fun p hp => hfn p (List.mem_cons_of_mem _ hp))
        · intro p hp hdead
          rcases List.mem_cons.mp hp with heq | hmem
          · rw [heq] at hdead
            rw [hdead] at halive
            exact absurd halive (by simp)
          · exact IH2 p hmem hdead
        · intro p hp hpex hpidle hpuse
          rcases List.mem_cons.mp hp with heq | hmem
          · rw [heq] at hpidle hpuse
            exact absurd ⟨hpidle, hpuse⟩ hstale
          · exact IH3 p hmem hpex hpidle hpuse
        · intro k' hk'
          obtain ⟨p, hp, hpk, hpcond⟩ := IH4 k' hk'
          exact ⟨p, List.mem_cons_of_mem _ hp, hpk, hpcond⟩
      -- dead: keep the file state, mark the key
    · rcases h2 : cleanupScan nowDay maxd rest fs with ⟨fs2, rem2⟩
      have halive' : fileExists fs e.filename = false := by
        simpa using halive
      have hscan : cleanupScan nowDay maxd ((k, e) :: rest) fs =
          (fs2, k :: rem2) := by
        simp only [cleanupScan, halive', Bool.false_eq_true, if_false, h2]
      have IH := ih fs hrest
      rw [h2] at IH
      obtain ⟨IH1, IH2, IH3, IH4⟩ := IH
      rw [hscan]
      refine ⟨?_, ?_, ?_, ?_⟩
      · intro fn hfn
        exact IH1 fn (fun p hp => hfn p (List.mem_cons_of_mem _ hp))
      · intro p hp hdead
        rcases List.mem_cons.mp hp with heq | hmem
        · exact heq ▸ List.mem_cons_self _ _
        · exact List.mem_cons_of_mem _ (IH2 p hmem hdead)
      · intro p hp hpex hpidle hpuse
        rcases List.mem_cons.mp hp with heq | hmem
        · rw [heq] at hpex
          rw [hpex] at halive'
          exact absurd halive' (by simp)
        · have := IH3 p hmem hpex hpidle hpuse
          exact ⟨List.mem_cons_of_mem _ this.1, this.2⟩
      · intro k' hk'
        rcases List.mem_cons.mp hk' with heq | hmem
        · exact ⟨(k, e), List.mem_cons_self _ _, heq.symm, Or.inl halive'⟩
        · obtain ⟨p, hp, hpk, hpcond⟩ := IH4 k' hmem
          exact ⟨p, List.mem_cons_of_mem _ hp, hpk, hpcond⟩

/-- The artifact directory after cleanup is the one produced by the scan,
whether or not anything was removed or saved. -/
theorem cleanup_files_eq (saveOk : Bool) (now : PyTime) (st : EngineState)
    (maxd : Int) :
    (cleanup_old_scripts saveOk now st maxd).files =
      (cleanupScan now.day maxd (_load_script_registry st.registryFile)
        st.files).1 := by
  unfold cleanup_old_scripts loadRegistry _save_script_registry
  rcases h2 : cleanupScan now.day maxd (_load_script_registry st.registryFile)
    st.files with ⟨fs2, rem2⟩
  simp only [h2]
  by_cases hempty : rem2.isEmpty = true
  · simp [hempty]
  · simp only [hempty, Bool.false_eq_true, if_false]
    by_cases hsave : saveOk = true
    · simp [hsave]
    · simp only [Bool.not_eq_true] at hsave
      simp [hsave]

/-- A binding survives cleanup exactly when it was in the registry and its key
was not marked for removal by the scan. -/
theorem cleanup_registry_mem (now : PyTime) (st : EngineState) (maxd : Int)
    (p : String × ScriptInfo) :
    p ∈ _load_script_registry (cleanup_old_scripts true now st maxd).registryFile ↔
      (p ∈ _load_script_registry st.registryFile ∧
       p.1 ∉ (cleanupScan now.day maxd (_load_script_registry st.registryFile)
         st.files).2) := by
  unfold cleanup_old_scripts loadRegistry _save_script_registry
  rcases h2 : cleanupScan now.day maxd (_load_script_registry st.registryFile)
    st.files with ⟨fs2, rem2⟩
  simp only [h2]
  by_cases hempty : rem2.isEmpty = true
  · rw [List.isEmpty_iff] at hempty
    subst hempty
    simp
  · simp only [hempty, Bool.false_eq_true, if_false, if_true,
      _load_script_registry, List.mem_filter]
    constructor
    · rintro ⟨hmem, hdec⟩
      exact ⟨hmem, by simpa using hdec⟩
    · rintro ⟨hmem, hnot⟩
      exact ⟨hmem, by simpa using hnot⟩

/-- Counterexample to C8, as stated.  Two fingerprints share one artifact
file; the first entry is fresh and heavily used, the second idle with
`usage_count = 1`.  Cleanup unlinks the shared file on behalf of the idle
entry, so afterwards the surviving fresh entry references a missing artifact
and its artifact file was not left unchanged — both the claimed
no-dead-entries postcondition and the untouched-survivors postcondition
fail. -/
theorem cleanup_postcondition_counterexample :
    freshShared.usage_count = 5
    ∧ lastUsedOf freshShared = 100
    ∧ fileExists sharedState.files freshShared.filename = true
    ∧ dictGet (_load_script_registry (cleanup_old_scripts true
        { day := 100, stamp := "x" } sharedState 30).registryFile) "k1" =
        some freshShared
    ∧ fileExists (cleanup_old_scripts true { day := 100, stamp := "x" }
        sharedState 30).files freshShared.filename = false := by
  refine ⟨by decide, by decide, by decide, by decide, by decide⟩

/-- C8 as amended.  Provided no two registry entries share an artifact
filename (and keys are unique, as Python dict keys are), cleanup establishes
the claimed postcondition: (A) no surviving entry references a missing
artifact; (B) every entry whose artifact is missing is dropped, and every
entry idle for more than `max_unused_days` with `usage_count ≤ 2` is dropped
with its artifact deleted; (C) every other entry survives with its artifact
content unchanged.  Without the distinct-filename proviso the postcondition
fails (see the counterexample): deleting one entry's artifact can orphan
another surviving entry. -/
theorem cleanup_old_scripts_amended (now : PyTime) (st : EngineState)
    (maxd : Int)
    (hfiles : ((_load_script_registry st.registryFile).map
      (fun p => p.2.filename)).Nodup)
    (hkeys : ((_load_script_registry st.registryFile).map Prod.fst).Nodup) :
    (∀ p ∈ _load_script_registry
        (cleanup_old_scripts true now st maxd).registryFile,
      fileExists (cleanup_old_scripts true now st maxd).files
        p.2.filename = true)
    ∧ (∀ p ∈ _load_script_registry st.registryFile,
        fileExists st.files p.2.filename = false →
        ∀ q ∈ _load_script_registry
          (cleanup_old_scripts true now st maxd).registryFile, q.1 ≠ p.1)
    ∧ (∀ p ∈ _load_script_registry st.registryFile,
        fileExists st.files p.2.filename = true →
        maxd < now.day - lastUsedOf p.2 → p.2.usage_count ≤ 2 →
        (∀ q ∈ _load_script_registry
          (cleanup_old_scripts true now st maxd).registryFile, q.1 ≠ p.1)
        ∧ dictGet (cleanup_old_scripts true now st maxd).files
            p.2.filename = none)
    ∧ (∀ p ∈ _load_script_registry st.registryFile,
        fileExists st.files p.2.filename = true →
        ¬(maxd < now.day - lastUsedOf p.2 ∧ p.2.usage_count ≤ 2) →
        p ∈ _load_script_registry
          (cleanup_old_scripts true now st maxd).registryFile
        ∧ dictGet (cleanup_old_scripts true now st maxd).files p.2.filename =
            dictGet st.files p.2.filename) := by
  obtain ⟨spec1, spec2, spec3, spec4⟩ :=
    cleanupScan_spec now.day maxd (_load_script_registry st.registryFile)
      st.files hfiles
  have hfinj := List.inj_on_of_nodup_map hfiles
  have hkinj := List.inj_on_of_nodup_map hkeys
  have hcontent : ∀ p ∈ _load_script_registry st.registryFile,
      fileExists st.files p.2.filename = true →
      ¬(maxd < now.day - lastUsedOf p.2 ∧ p.2.usage_count ≤ 2) →
      dictGet (cleanupScan now.day maxd (_load_script_registry st.registryFile)
        st.files).1 p.2.filename = dictGet st.files p.2.filename := by
    intro p hp halive hkeep
    refine spec1 p.2.filename ?_
    intro q hq ⟨hqfn, _, hqidle, hquse⟩
    exact hkeep (hfinj hq hp hqfn ▸ ⟨hqidle, hquse⟩)
  refine ⟨?_, ?_, ?_, ?_⟩
  · intro p hp
    obtain ⟨hmem, hnot⟩ := (cleanup_registry_mem now st maxd p).mp hp
    cases halive : fileExists st.files p.2.filename with
    | false => exact absurd (spec2 p hmem halive) hnot
    | true =>
      have hkeep : ¬(maxd < now.day - lastUsedOf p.2 ∧ p.2.usage_count ≤ 2) := by
        rintro ⟨hidle, huse⟩
        exact hnot (spec3 p hmem halive hidle huse).1
      rw [cleanup_files_eq]
      unfold fileExists at halive ⊢
      rw [hcontent p hmem halive hkeep]
      exact halive
  · intro p hp hdead q hq hcontra
    obtain ⟨_, hqnot⟩ := (cleanup_registry_mem now st maxd q).mp hq
    exact hqnot (hcontra ▸ spec2 p hp hdead)
  · intro p hp halive hidle huse
    obtain ⟨hrem, hgone⟩ := spec3 p hp halive hidle huse
    refine ⟨?_, ?_⟩
    · intro q hq hcontra
      obtain ⟨_, hqnot⟩ := (cleanup_registry_mem now st maxd q).mp hq
      exact hqnot (hcontra ▸ hrem)
    · rw [cleanup_files_eq]
      exact hgone
  · intro p hp halive hkeep
    have hnot : p.1 ∉ (cleanupScan now.day maxd
        (_load_script_registry st.registryFile) st.files).2 := by
      intro hmem
      obtain ⟨q, hq, hqk, hqbad⟩ := spec4 p.1 hmem
      have hqp : q = p := hkinj hq hp hqk
      subst hqp
      rcases hqbad with hdead | hstale
      · rw [halive] at hdead
        exact absurd hdead (by simp)
      · exact hkeep hstale
    refine ⟨(cleanup_registry_mem now st maxd p).mpr ⟨hp, hnot⟩, ?_⟩
    rw [cleanup_files_eq]
    exact hcontent p hp halive hkeep

/-- Witness for C8 (amended) on a three-entry registry with distinct
filenames and keys: the dead entry `"a"` and the idle entry `"b"` are
dropped (the idle one losing its artifact), the fresh entry `"c"` and its
artifact survive unchanged. -/
theorem cleanup_old_scripts_amended_witness :
    (((_load_script_registry cleanupState.registryFile).map
      (fun p => p.2.filename)).Nodup
    ∧ ((_load_script_registry cleanupState.registryFile).map Prod.fst).Nodup)
    ∧ (∀ q ∈ _load_script_registry (cleanup_old_scripts true
        { day := 100, stamp := "x" } cleanupState 30).registryFile, q.1 ≠ "a")
    ∧ ((∀ q ∈ _load_script_registry (cleanup_old_scripts true
          { day := 100, stamp := "x" } cleanupState 30).registryFile, q.1 ≠ "b")
      ∧ dictGet (cleanup_old_scripts true { day := 100, stamp := "x" }
          cleanupState 30).files idleEntry.filename = none)
    ∧ (("c", keptEntry) ∈ _load_script_registry (cleanup_old_scripts true
          { day := 100, stamp := "x" } cleanupState 30).registryFile
      ∧ dictGet (cleanup_old_scripts true { day := 100, stamp := "x" }
          cleanupState 30).files keptEntry.filename =
          dictGet cleanupState.files keptEntry.filename) := by
  have hamended := cleanup_old_scripts_amended { day := 100, stamp := "x" }
    cleanupState 30 (by decide) (by decide)
  refine ⟨⟨by decide, by decide⟩, ?_, ?_, ?_⟩
  · exact hamended.2.1 ("a", deadEntry) (by decide) (by decide)
  · exact hamended.2.2.1 ("b", idleEntry) (by decide) (by decide)
      (by decide) (by decide)
  · exact hamended.2.2.2 ("c", keptEntry) (by decide) (by decide)
      (by decide)
